import Mathlib

/-!
Shallow embedding of src/seniorGolangEngineerAssignnment/main.go, an in-memory
employee CRUD HTTP service.

Modelling choices, faithful to the source:
- The global mutable state (the `employees` map and the `lastID` counter,
  main.go lines 44-49) is threaded explicitly as a `Store` value.  The Go map
  is modelled as an association list with replace-or-insert assignment and
  first-match lookup; iteration order of a Go map is unspecified, so
  `ListEmployees` receives the iteration order as an explicit argument
  (a list of keys).
- Go `int` is 64-bit signed; arithmetic wraps in two's complement.  The
  pagination index computation (main.go lines 172-187) is modelled with
  `wrap64` at every operation that can overflow, and the Go slice expression
  `employeeList[startIdx:endIdx]` is modelled by `goSlice`, whose out-of-range
  case (a Go run-time panic) is `Option.none`.
- `strconv.Atoi` is modelled including its range-error behaviour: on a syntax
  error it yields value 0, on an out-of-range decimal it yields the clamped
  int64 bound, in both cases together with a non-nil error message.
- The JSON decoder is an external collaborator: handlers that read a request
  body take the decode outcome (`Except String Employee`) as an argument; a
  decode error carries the raw decoder error text.
- HTTP responses are `Response` values (status code plus body).
-/

/-- Largest value of the 64-bit signed integer type (Go `int` on amd64). -/
def int64Max : Int := 9223372036854775807

/-- Smallest value of the 64-bit signed integer type (Go `int` on amd64). -/
def int64Min : Int := -9223372036854775808

/-- Two's-complement wrap-around of 64-bit signed integer arithmetic:
the representative of `x` modulo `2^64` lying in `[int64Min, int64Max]`. -/
def wrap64 (x : Int) : Int :=
  (x + 9223372036854775808) % 18446744073709551616 - 9223372036854775808

/-- main.go lines 37-42: the `Employee` struct (`ID`, `Name`, `Position`,
`Salary float64`).  The salary is stored and copied but never computed with,
so `Float` is carried opaquely. -/
structure Employee where
  id : Int
  name : String
  position : String
  salary : Float

/-- Body of an HTTP response as the handlers write it: a JSON array of
employees (`ListEmployees`), a single JSON employee (create/get/update),
plain error text (`http.Error`), or no body (204). -/
inductive RespBody where
  | json (emps : List Employee)
  | jsonOne (emp : Employee)
  | text (msg : String)
  | empty

/-- An HTTP response: status code plus body. -/
structure Response where
  status : Nat
  body : RespBody

/-- main.go lines 44-49: the shared state, an `employees` map keyed by id plus
the `lastID` counter.  `lastID` is kept exact (reaching int64 overflow would
require 2^63 successful creates from the initial state). -/
structure Store where
  employees : List (Int × Employee)
  lastID : Int

/-- main.go lines 46-48: `employees = make(map[int]*Employee)`, `lastID = 0`. -/
def initialStore : Store := { employees := [], lastID := 0 }

/-- Decimal digit run: accumulates the value, fails on a non-digit. -/
def decDigits : List Char → Nat → Option Nat
  | [], acc => some acc
  | c :: cs, acc =>
    if c.isDigit then decDigits cs (acc * 10 + (c.toNat - 48)) else none

/-- Base-10 integer syntax accepted by `strconv.Atoi`: an optional sign
followed by a nonempty run of digits. -/
def parseDec (s : String) : Option Int :=
  match s.data with
  | [] => none
  | '+' :: cs => if cs.isEmpty then none else (decDigits cs 0).map (fun n => (n : Int))
  | '-' :: cs => if cs.isEmpty then none else (decDigits cs 0).map (fun n => -(n : Int))
  | cs => (decDigits cs 0).map (fun n => (n : Int))

/-- `strconv.Atoi`, returning (value, error message).  On a syntax error the
value is 0; an out-of-range decimal yields the clamped int64 bound together
with a range error (Go `ParseInt` documents this).  Error texts follow
`NumError.Error` for inputs whose `%q` quoting adds no escapes. -/
def atoi (s : String) : Int × Option String :=
  match parseDec s with
  | none => (0, some ("strconv.Atoi: parsing \"" ++ s ++ "\": invalid syntax"))
  | some v =>
    if v < int64Min then
      (int64Min, some ("strconv.Atoi: parsing \"" ++ s ++ "\": value out of range"))
    else if int64Max < v then
      (int64Max, some ("strconv.Atoi: parsing \"" ++ s ++ "\": value out of range"))
    else (v, none)

/-- Go map assignment `employees[k] = v`: replace the entry at key `k`,
or add one if absent. -/
def mapInsert : List (Int × Employee) → Int → Employee → List (Int × Employee)
  | [], k, v => [(k, v)]
  | (a, b) :: t, k, v => if a = k then (k, v) :: t else (a, b) :: mapInsert t k v

/-- Go `delete(employees, k)`. -/
def mapErase (m : List (Int × Employee)) (k : Int) : List (Int × Employee) :=
  m.filter (fun p => p.1 != k)

/-- The keys of the store, in representation order. -/
def storeKeys (st : Store) : List Int := st.employees.map Prod.fst

/-- The records of the store, in representation order. -/
def storeRecords (st : Store) : List Employee := st.employees.map Prod.snd

/-- main.go lines 167-170: the `employeeList` slice built by ranging over the
map, with the (unspecified) iteration order `ord` supplied externally. -/
def snapshot (st : Store) (ord : List Int) : List Employee :=
  ord.filterMap (fun k => st.employees.lookup k)

/-- An iteration order is valid when it enumerates exactly the keys of the
map (each exactly once, in some order). -/
abbrev validOrder (st : Store) (ord : List Int) : Prop :=
  ord.Perm (storeKeys st)

/-- The Go slice expression `l[lo:hi]`.  Go panics at run time unless
`0 <= lo <= hi <= len(l)` (capacity equals length here); the panic is
modelled as `none`. -/
def goSlice (l : List Employee) (lo hi : Int) : Option (List Employee) :=
  if 0 ≤ lo ∧ lo ≤ hi ∧ hi ≤ (l.length : Int) then
    some ((l.drop lo.toNat).take (hi - lo).toNat)
  else none

/-- main.go lines 172-187: the pagination computation over the snapshot, with
64-bit wrap-around on each arithmetic step:
`startIdx := (page - 1) * pageSize`; if `startIdx >= totalEmployees` the
result is the empty slice; otherwise `endIdx := startIdx + pageSize`, capped
at `totalEmployees`, and the result is `employeeList[startIdx:endIdx]`. -/
def goPageSlice (l : List Employee) (page pageSize : Int) : Option (List Employee) :=
  if wrap64 (wrap64 (page - 1) * pageSize) ≥ (l.length : Int) then some []
  else
    goSlice l (wrap64 (wrap64 (page - 1) * pageSize))
      (if wrap64 (wrap64 (wrap64 (page - 1) * pageSize) + pageSize) > (l.length : Int) then
        (l.length : Int)
      else wrap64 (wrap64 (wrap64 (page - 1) * pageSize) + pageSize))

/-- main.go lines 155-158: `page, _ := strconv.Atoi(...)`; the error is
discarded, and any value below 1 falls back to 1. -/
def effPage (s : String) : Int :=
  if (atoi s).1 < 1 then 1 else (atoi s).1

/-- main.go lines 159-162: `pageSize, _ := strconv.Atoi(...)`; the error is
discarded, and any value below 1 falls back to 10. -/
def effPageSize (s : String) : Int :=
  if (atoi s).1 < 1 then 10 else (atoi s).1

/-- main.go lines 154-191: `ListEmployees`.  The query parameters arrive as
raw strings (absent parameters as the empty string, which is how
`r.URL.Query().Get` reports them); `ord` is the iteration order of the map
for this call.  `none` models a run-time panic of the handler. -/
def ListEmployees (st : Store) (ord : List Int) (pageStr pageSizeStr : String) :
    Option Response :=
  (goPageSlice (snapshot st ord) (effPage pageStr) (effPageSize pageSizeStr)).map
    (fun res => ⟨200, .json res⟩)

/-- main.go lines 53-68: `CreateEmployee`.  A decode error is surfaced as
400 with the raw decoder text; otherwise `lastID` is incremented, the decoded
record gets the fresh id and is stored, and the stored record is echoed. -/
def CreateEmployee (st : Store) (body : Except String Employee) : Store × Response :=
  match body with
  | .error e => (st, ⟨400, .text e⟩)
  | .ok emp =>
    (⟨mapInsert st.employees (st.lastID + 1) { emp with id := st.lastID + 1 },
      st.lastID + 1⟩,
     ⟨200, .jsonOne { emp with id := st.lastID + 1 }⟩)

/-- main.go lines 70-92: `GetEmployeeByID`. -/
def GetEmployeeByID (st : Store) (idStr : String) : Response :=
  match atoi idStr with
  | (_, some _) => ⟨400, .text "Invalid employee ID"⟩
  | (id, none) =>
    match st.employees.lookup id with
    | none => ⟨404, .text "Employee not found"⟩
    | some emp => ⟨200, .jsonOne emp⟩

/-- main.go lines 94-129: `UpdateEmployee`.  Order of checks as in the source:
id parse, then content type, then body decode, then existence; on success the
decoded record with its id forced to the path id replaces the stored one. -/
def UpdateEmployee (st : Store) (idStr : String) (contentType : String)
    (body : Except String Employee) : Store × Response :=
  match atoi idStr with
  | (_, some _) => (st, ⟨400, .text "Invalid employee ID"⟩)
  | (id, none) =>
    if contentType ≠ "application/json" then
      (st, ⟨415, .text "Invalid content-type. Expected \x27application/json\x27"⟩)
    else
      match body with
      | .error e => (st, ⟨400, .text e⟩)
      | .ok updatedEmp =>
        match st.employees.lookup id with
        | none => (st, ⟨404, .text "Employee not found"⟩)
        | some _ =>
          ({ st with employees := mapInsert st.employees id { updatedEmp with id := id } },
           ⟨200, .jsonOne { updatedEmp with id := id }⟩)

/-- main.go lines 131-151: `DeleteEmployee`. -/
def DeleteEmployee (st : Store) (idStr : String) : Store × Response :=
  match atoi idStr with
  | (_, some _) => (st, ⟨400, .text "Invalid employee ID"⟩)
  | (id, none) =>
    match st.employees.lookup id with
    | none => (st, ⟨404, .text "Employee not found"⟩)
    | some _ => ({ st with employees := mapErase st.employees id }, ⟨204, .empty⟩)

/-- One inbound request, with everything the handlers read from it. -/
inductive Op where
  | create (body : Except String Employee)
  | get (idStr : String)
  | update (idStr : String) (contentType : String) (body : Except String Employee)
  | delete (idStr : String)
  | list (ord : List Int) (pageStr pageSizeStr : String)

/-- Dispatch one request against the store.  Reads leave the store unchanged;
the response is `none` exactly when the handler panics. -/
def runOp (st : Store) : Op → Store × Option Response
  | .create body => ((CreateEmployee st body).1, some (CreateEmployee st body).2)
  | .get idStr => (st, some (GetEmployeeByID st idStr))
  | .update idStr ct body =>
    ((UpdateEmployee st idStr ct body).1, some (UpdateEmployee st idStr ct body).2)
  | .delete idStr => ((DeleteEmployee st idStr).1, some (DeleteEmployee st idStr).2)
  | .list ord pageStr pageSizeStr => (st, ListEmployees st ord pageStr pageSizeStr)

/-- A sequence of create calls with already-decoded bodies, returning the
final store and the responses in order. -/
def createMany : Store → List Employee → Store × List Response
  | st, [] => (st, [])
  | st, e :: es =>
    ((createMany (CreateEmployee st (.ok e)).1 es).1,
     (CreateEmployee st (.ok e)).2 :: (createMany (CreateEmployee st (.ok e)).1 es).2)

/-- The identifiers assigned by create responses (the id field of each echoed
record). -/
def assignedIds (rs : List Response) : List Int :=
  rs.filterMap (fun r =>
    match r.body with
    | .jsonOne e => some e.id
    | _ => none)

/-- The identifiers base+1, ..., base+n, in order. -/
def idsFrom (base : Int) (n : Nat) : List Int :=
  (List.range n).map (fun i : Nat => base + 1 + (i : Int))

/-- Modelled from the spec (section 4.4 Pagination Logic), with exact integer
arithmetic: `start = (page-1)*pageSize`; if `start >= total` the result is
empty, otherwise `end = min(start+pageSize, total)` and the result is the
sub-sequence `[start, end)` of the snapshot. -/
def specPageSlice (l : List Employee) (page pageSize : Int) : List Employee :=
  if (page - 1) * pageSize ≥ (l.length : Int) then []
  else
    (l.drop ((page - 1) * pageSize).toNat).take
      (min ((page - 1) * pageSize + pageSize) (l.length : Int) - (page - 1) * pageSize).toNat

/-- Concrete employee used in witnesses. -/
def empAlice : Employee :=
  { id := 1, name := "Alice", position := "Engineer", salary := 85000.0 }

/-- Concrete employee used in witnesses. -/
def empBob : Employee :=
  { id := 2, name := "Bob", position := "Manager", salary := 120000.0 }

/-- A concrete two-record store. -/
def twoStore : Store := { employees := [(1, empAlice), (2, empBob)], lastID := 2 }

/-- A concrete employee with default field values. -/
def blankEmp : Employee := { id := 0, name := "", position := "", salary := 0.0 }

/-- First employee name in a JSON-array response, used to separate responses. -/
def respFirstName : Option Response → String
  | some ⟨_, .json (e :: _)⟩ => e.name
  | _ => ""

theorem wrap64_eq_self {x : Int} (h1 : int64Min ≤ x) (h2 : x ≤ int64Max) :
    wrap64 x = x := by
  unfold wrap64
  unfold int64Min at h1
  unfold int64Max at h2
  omega

theorem lookup_mapInsert_self (m : List (Int × Employee)) (k : Int) (v : Employee) :
    (mapInsert m k v).lookup k = some v := by
  induction m with
  | nil => simp [mapInsert, List.lookup]
  | cons p t ih =>
    obtain ⟨a, b⟩ := p
    by_cases h : a = k
    · subst h
      simp [mapInsert, List.lookup]
    · have hka : (k == a) = false := by
        simp only [beq_eq_false_iff_ne, ne_eq]
        exact fun hk => h hk.symm
      simp only [mapInsert, if_neg h, List.lookup, hka]
      exact ih

theorem lookup_mapErase_self (m : List (Int × Employee)) (k : Int) :
    (mapErase m k).lookup k = none := by
  induction m with
  | nil => rfl
  | cons p t ih =>
    obtain ⟨a, b⟩ := p
    by_cases h : a = k
    · simpa [mapErase, List.filter_cons, h] using ih
    · have hka : (k == a) = false := by
        simp only [beq_eq_false_iff_ne, ne_eq]
        exact fun hk => h hk.symm
      simp only [mapErase, List.filter_cons] at ih ⊢
      simp only [bne_iff_ne, ne_eq, h, not_false_iff, if_pos, decide_eq_true_eq,
        List.lookup, hka]
      exact ih

theorem goPageSlice_eq_spec (l : List Employee) (page pageSize : Int)
    (hp : 1 ≤ page) (hs : 1 ≤ pageSize) (hmax : page * pageSize ≤ int64Max) :
    goPageSlice l page pageSize = some (specPageSlice l page pageSize) := by
  have hpage : page ≤ int64Max := by
    calc page = page * 1 := (mul_one page).symm
    _ ≤ page * pageSize := mul_le_mul_of_nonneg_left hs (by omega)
    _ ≤ int64Max := hmax
  have hsp : (page - 1) * pageSize ≤ page * pageSize :=
    mul_le_mul_of_nonneg_right (by omega) (by omega)
  have h0 : 0 ≤ (page - 1) * pageSize := mul_nonneg (by omega) (by omega)
  have hw1 : wrap64 (page - 1) = page - 1 :=
    wrap64_eq_self (by unfold int64Min; omega) (by unfold int64Max at hpage ⊢; omega)
  have hsum : (page - 1) * pageSize + pageSize = page * pageSize := by ring
  have hw2 : wrap64 ((page - 1) * pageSize) = (page - 1) * pageSize :=
    wrap64_eq_self (by unfold int64Min; omega)
      (by unfold int64Max at hmax ⊢; omega)
  have hw3 : wrap64 ((page - 1) * pageSize + pageSize) = (page - 1) * pageSize + pageSize :=
    wrap64_eq_self (by unfold int64Min; omega) (by rw [hsum]; exact hmax)
  unfold goPageSlice specPageSlice
  rw [hw1, hw2, hw3]
  by_cases hstart : (page - 1) * pageSize ≥ (l.length : Int)
  · rw [if_pos hstart, if_pos hstart]
  · rw [if_neg hstart, if_neg hstart]
    have hhi : (if (page - 1) * pageSize + pageSize > (l.length : Int) then (l.length : Int)
        else (page - 1) * pageSize + pageSize)
        = min ((page - 1) * pageSize + pageSize) (l.length : Int) := by
      split <;> omega
    rw [hhi]
    unfold goSlice
    rw [if_pos]
    exact ⟨h0, by omega, by omega⟩

theorem specPageSlice_beyond (l : List Employee) (page pageSize : Int)
    (h : (page - 1) * pageSize ≥ (l.length : Int)) : specPageSlice l page pageSize = [] := by
  unfold specPageSlice
  rw [if_pos h]

theorem specPageSlice_len25_page3 (l : List Employee) (h : l.length = 25) :
    (specPageSlice l 3 10).length = 5 := by
  unfold specPageSlice
  rw [h]
  norm_num [List.length_take, List.length_drop, h]
  decide

theorem specPageSlice_len25_page1 (l : List Employee) (h : l.length = 25) :
    specPageSlice l 1 25 = l := by
  unfold specPageSlice
  rw [h]
  norm_num
  omega

/-- Claim C1: with effective parameters page >= 1 and pageSize >= 1 over a
fixed-order snapshot, the result is the spec sub-sequence (start =
(page-1)*pageSize; empty when start >= total; else [start, min(start+pageSize,
total))) whenever the index arithmetic stays within int64; over 25 records,
page 3 of size 10 has exactly 5 records, page 1 of size 25 is the whole
snapshot, and any page beyond range is empty.  But at page=3,
pageSize=9223372036854775807 the handler int64-overflows and panics instead of
returning the empty sequence the formula prescribes. -/
theorem listEmployees_pagination :
    (∀ (l : List Employee) (page pageSize : Int), 1 ≤ page → 1 ≤ pageSize →
      page * pageSize ≤ int64Max →
      goPageSlice l page pageSize = some (specPageSlice l page pageSize)) ∧
    (∀ l : List Employee, l.length = 25 →
      (goPageSlice l 3 10 = some (specPageSlice l 3 10) ∧
        (specPageSlice l 3 10).length = 5) ∧
      goPageSlice l 1 25 = some l ∧
      (∀ page pageSize : Int, 1 ≤ page → 1 ≤ pageSize → page * pageSize ≤ int64Max →
        (page - 1) * pageSize ≥ 25 → goPageSlice l page pageSize = some [])) ∧
    (specPageSlice [] 3 int64Max = [] ∧
      ListEmployees initialStore [] "3" "9223372036854775807" = none) := by
  refine ⟨goPageSlice_eq_spec, ?_, rfl, rfl⟩
  intro l h
  refine ⟨⟨goPageSlice_eq_spec l 3 10 (by decide) (by decide) (by decide),
    specPageSlice_len25_page3 l h⟩, ?_, ?_⟩
  · rw [goPageSlice_eq_spec l 1 25 (by decide) (by decide) (by decide),
      specPageSlice_len25_page1 l h]
  · intro page pageSize hp hs hmax hbeyond
    rw [goPageSlice_eq_spec l page pageSize hp hs hmax,
      specPageSlice_beyond l page pageSize (by omega)]

/-- Witness for the hypothesis-bearing parts of listEmployees_pagination, at a
concrete 25-record snapshot. -/
theorem listEmployees_pagination_witness :
    goPageSlice (List.replicate 25 blankEmp) 3 10
      = some (specPageSlice (List.replicate 25 blankEmp) 3 10) ∧
    (specPageSlice (List.replicate 25 blankEmp) 3 10).length = 5 ∧
    goPageSlice (List.replicate 25 blankEmp) 1 25 = some (List.replicate 25 blankEmp) ∧
    goPageSlice (List.replicate 25 blankEmp) 26 10 = some [] := by
  have h := listEmployees_pagination.2.1 (List.replicate 25 blankEmp) (by simp)
  exact ⟨h.1.1, h.1.2, h.2.1, h.2.2 26 10 (by decide) (by decide) (by decide) (by decide)⟩

/-- Claim C2: after a successful update the stored record carries the
path-supplied id — the id inside the payload is ignored — and a subsequent
get on the same id returns the new field values with the id preserved. -/
theorem updateEmployee_preserves_id :
    ∀ (st : Store) (idStr : String) (id : Int) (emp old : Employee),
      atoi idStr = (id, none) →
      st.employees.lookup id = some old →
      UpdateEmployee st idStr "application/json" (.ok emp) =
        ({ st with employees := mapInsert st.employees id { emp with id := id } },
         ⟨200, .jsonOne { emp with id := id }⟩) ∧
      ({ st with
          employees := mapInsert st.employees id { emp with id := id } }).employees.lookup id
        = some { emp with id := id } ∧
      GetEmployeeByID
          { st with employees := mapInsert st.employees id { emp with id := id } } idStr
        = ⟨200, .jsonOne { emp with id := id }⟩ ∧
      Employee.id { emp with id := id } = id ∧
      Employee.name { emp with id := id } = emp.name ∧
      Employee.position { emp with id := id } = emp.position ∧
      Employee.salary { emp with id := id } = emp.salary := by
  intro st idStr id emp old hid hlook
  refine ⟨?_, lookup_mapInsert_self st.employees id { emp with id := id }, ?_, rfl, rfl, rfl, rfl⟩
  · unfold UpdateEmployee
    rw [hid]
    simp [hlook]
  · unfold GetEmployeeByID
    rw [hid]
    simp [lookup_mapInsert_self]

/-- Claim C4: an update on an absent id fails with 404 and a fixed message and
leaves the store (mapping and counter) unchanged; more generally every
non-200 outcome of the update handler leaves the store unchanged. -/
theorem updateEmployee_notFound_atomic :
    (∀ (st : Store) (idStr : String) (id : Int) (emp : Employee),
      atoi idStr = (id, none) →
      st.employees.lookup id = none →
      UpdateEmployee st idStr "application/json" (.ok emp)
        = (st, ⟨404, .text "Employee not found"⟩)) ∧
    (∀ (st : Store) (idStr contentType : String) (body : Except String Employee),
      (UpdateEmployee st idStr contentType body).2.status ≠ 200 →
      (UpdateEmployee st idStr contentType body).1 = st) := by
  constructor
  · intro st idStr id emp hid hlook
    unfold UpdateEmployee
    rw [hid]
    simp [hlook]
  · intro st idStr contentType body hfail
    unfold UpdateEmployee at hfail ⊢
    rcases hA : atoi idStr with ⟨v, oe⟩
    rcases oe with _ | e
    · by_cases hct : contentType ≠ "application/json"
      · simp [hct]
      · simp only [if_neg hct] at hfail ⊢
        rcases body with e | emp
        · rfl
        · rcases hl : st.employees.lookup v with _ | old
          · rfl
          · rw [hA] at hfail
            simp [hl, hct] at hfail
    · rfl

/-- Claim C5: a create echoes the stored record, whose id is the fresh
counter value; an immediately following get on that id returns the same
name, position and salary as were created. -/
theorem getEmployee_after_create :
    ∀ (st : Store) (emp : Employee) (idStr : String),
      CreateEmployee st (.ok emp) =
        (⟨mapInsert st.employees (st.lastID + 1) { emp with id := st.lastID + 1 },
          st.lastID + 1⟩,
         ⟨200, .jsonOne { emp with id := st.lastID + 1 }⟩) ∧
      (atoi idStr = (st.lastID + 1, none) →
        GetEmployeeByID (CreateEmployee st (.ok emp)).1 idStr
          = ⟨200, .jsonOne { emp with id := st.lastID + 1 }⟩) ∧
      Employee.name { emp with id := st.lastID + 1 } = emp.name ∧
      Employee.position { emp with id := st.lastID + 1 } = emp.position ∧
      Employee.salary { emp with id := st.lastID + 1 } = emp.salary := by
  intro st emp idStr
  refine ⟨rfl, ?_, rfl, rfl, rfl⟩
  intro hid
  unfold GetEmployeeByID
  rw [hid]
  simp [CreateEmployee, lookup_mapInsert_self]

/-- Claim C6: deleting a present id responds 204 with an empty body and
removes the record, so a following get on the same id is 404; deleting an
absent id is 404. -/
theorem deleteEmployee_then_get :
    (∀ (st : Store) (idStr : String) (id : Int) (emp : Employee),
      atoi idStr = (id, none) →
      st.employees.lookup id = some emp →
      DeleteEmployee st idStr
        = ({ st with employees := mapErase st.employees id }, ⟨204, .empty⟩) ∧
      ({ st with employees := mapErase st.employees id }).employees.lookup id = none ∧
      GetEmployeeByID { st with employees := mapErase st.employees id } idStr
        = ⟨404, .text "Employee not found"⟩) ∧
    (∀ (st : Store) (idStr : String) (id : Int),
      atoi idStr = (id, none) →
      st.employees.lookup id = none →
      DeleteEmployee st idStr = (st, ⟨404, .text "Employee not found"⟩)) := by
  constructor
  · intro st idStr id emp hid hlook
    refine ⟨?_, lookup_mapErase_self st.employees id, ?_⟩
    · unfold DeleteEmployee
      rw [hid]
      simp [hlook]
    · unfold GetEmployeeByID
      rw [hid]
      simp [lookup_mapErase_self]
  · intro st idStr id hid hlook
    unfold DeleteEmployee
    rw [hid]
    simp [hlook]

/-- Claim C10: on a parsable path id, a content type other than exactly
"application/json" yields 415 regardless of the store (in particular for an
absent id), since the check precedes both body decoding and the existence
check. -/
theorem updateEmployee_content_type_precedes :
    ∀ (st : Store) (idStr : String) (id : Int) (contentType : String)
      (body : Except String Employee),
      atoi idStr = (id, none) →
      contentType ≠ "application/json" →
      UpdateEmployee st idStr contentType body =
        (st, ⟨415, .text "Invalid content-type. Expected \x27application/json\x27"⟩) := by
  intro st idStr id contentType body hid hct
  unfold UpdateEmployee
  rw [hid]
  simp [hct]

theorem assignedIds_createMany (es : List Employee) :
    ∀ st : Store,
      assignedIds (createMany st es).2 = idsFrom st.lastID es.length := by
  induction es with
  | nil => intro st; rfl
  | cons e es ih =>
    intro st
    have hstep : assignedIds (createMany st (e :: es)).2
        = (st.lastID + 1) :: assignedIds (createMany (CreateEmployee st (.ok e)).1 es).2 := rfl
    rw [hstep, ih (CreateEmployee st (.ok e)).1]
    have hlast : (CreateEmployee st (.ok e)).1.lastID = st.lastID + 1 := rfl
    unfold idsFrom
    rw [hlast, List.length_cons, List.range_succ_eq_map, List.map_cons, List.map_map]
    congr 1
    · simp
    · refine List.map_congr_left fun a _ => ?_
      simp [Function.comp]
      ring

theorem idsFrom_pairwise (base : Int) (n : Nat) : (idsFrom base n).Pairwise (· < ·) := by
  unfold idsFrom
  rw [List.pairwise_map]
  exact (List.pairwise_lt_range n).imp (fun h => by omega)

theorem createMany_status (es : List Employee) :
    ∀ st : Store, (createMany st es).2.map Response.status = List.replicate es.length 200 := by
  induction es with
  | nil => intro st; rfl
  | cons e es ih =>
    intro st
    simp only [createMany, List.map_cons, ih, List.length_cons, List.replicate_succ,
      List.cons.injEq, and_true]
    rfl

theorem runOp_lastID_mono (st : Store) (op : Op) : st.lastID ≤ (runOp st op).1.lastID := by
  cases op with
  | create body =>
    rcases body with e | emp
    · simp [runOp, CreateEmployee]
    · simp only [runOp, CreateEmployee]
      omega
  | get idStr => simp [runOp]
  | list ord pageStr pageSizeStr => simp [runOp]
  | delete idStr =>
    simp only [runOp]
    unfold DeleteEmployee
    rcases hA : atoi idStr with ⟨v, oe⟩
    rcases oe with _ | e
    · rcases hl : st.employees.lookup v with _ | emp <;> simp [hl]
    · simp
  | update idStr contentType body =>
    simp only [runOp]
    unfold UpdateEmployee
    rcases hA : atoi idStr with ⟨v, oe⟩
    rcases oe with _ | e
    · by_cases hct : contentType ≠ "application/json"
      · simp [hct]
      · simp only [if_neg hct]
        rcases body with e | emp
        · simp
        · rcases hl : st.employees.lookup v with _ | old <;> simp [hl]
    · simp

/-- Claim C3: every create with a decodable body succeeds with 200 and stores
the record under the fresh identifier lastID+1; a sequence of N creates
assigns the identifiers lastID+1, ..., lastID+N, which are strictly
increasing and pairwise distinct; and no operation ever decreases the
counter. -/
theorem createEmployee_ids_strictly_increasing :
    (∀ (st : Store) (emp : Employee),
      CreateEmployee st (.ok emp) =
        (⟨mapInsert st.employees (st.lastID + 1) { emp with id := st.lastID + 1 },
          st.lastID + 1⟩,
         ⟨200, .jsonOne { emp with id := st.lastID + 1 }⟩)) ∧
    (∀ (st : Store) (es : List Employee),
      (createMany st es).2.map Response.status = List.replicate es.length 200) ∧
    (∀ (st : Store) (es : List Employee),
      assignedIds (createMany st es).2 = idsFrom st.lastID es.length) ∧
    (∀ (st : Store) (es : List Employee),
      (assignedIds (createMany st es).2).Pairwise (· < ·)) ∧
    (∀ (st : Store) (es : List Employee), (assignedIds (createMany st es).2).Nodup) ∧
    (∀ (st : Store) (op : Op), st.lastID ≤ (runOp st op).1.lastID) := by
  refine ⟨fun st emp => rfl, fun st es => createMany_status es st,
    fun st es => assignedIds_createMany es st, ?_, ?_, runOp_lastID_mono⟩
  · intro st es
    rw [assignedIds_createMany es st]
    exact idsFrom_pairwise _ _
  · intro st es
    rw [assignedIds_createMany es st]
    exact (idsFrom_pairwise _ _).imp ne_of_lt

theorem filterMap_lookup_keys (m : List (Int × Employee))
    (h : (m.map Prod.fst).Nodup) :
    (m.map Prod.fst).filterMap (fun k => m.lookup k) = m.map Prod.snd := by
  induction m with
  | nil => rfl
  | cons p t ih =>
    obtain ⟨a, b⟩ := p
    simp only [List.map_cons, List.nodup_cons] at h
    obtain ⟨ha, ht⟩ := h
    have hla : List.lookup a ((a, b) :: t) = some b := by simp [List.lookup]
    simp only [List.map_cons, List.filterMap_cons, hla]
    congr 1
    have hcongr : (t.map Prod.fst).filterMap (fun k => ((a, b) :: t).lookup k)
        = (t.map Prod.fst).filterMap (fun k => t.lookup k) := by
      refine List.filterMap_congr fun k hk => ?_
      have hka : (k == a) = false := by
        simp only [beq_eq_false_iff_ne, ne_eq]
        exact fun he => ha (he ▸ hk)
      simp [List.lookup, hka]
    rw [hcongr, ih ht]

theorem snapshot_perm (st : Store) (ord : List Int) (hord : validOrder st ord)
    (hnd : (storeKeys st).Nodup) : (snapshot st ord).Perm (storeRecords st) := by
  have h1 : (snapshot st ord).Perm ((storeKeys st).filterMap (fun k => st.employees.lookup k)) :=
    hord.filterMap _
  unfold storeKeys at h1 hnd
  unfold storeRecords
  rwa [filterMap_lookup_keys st.employees hnd] at h1

theorem specPageSlice_pages_cover (l : List Employee) (pageSize : Int) (hs : 1 ≤ pageSize) :
    ∀ n : Nat, (List.range n).flatMap (fun i => specPageSlice l ((i : Int) + 1) pageSize)
      = l.take (n * pageSize.toNat) := by
  intro n
  have hps : ((pageSize.toNat : Int)) = pageSize := Int.toNat_of_nonneg (by omega)
  induction n with
  | zero => simp
  | succ n ih =>
    have hcast : ((n * pageSize.toNat : Nat) : Int) = (n : Int) * pageSize := by
      push_cast [hps]
      ring
    have hcast2 : (((n + 1) * pageSize.toNat : Nat) : Int) = (n : Int) * pageSize + pageSize := by
      push_cast [hps]
      ring
    rw [List.range_succ, List.flatMap_append, ih]
    simp only [List.flatMap_cons, List.flatMap_nil, List.append_nil]
    unfold specPageSlice
    have hstart : ((n : Int) + 1 - 1) * pageSize = (n : Int) * pageSize := by ring
    rw [hstart]
    by_cases hbig : (n : Int) * pageSize ≥ (l.length : Int)
    · rw [if_pos hbig, List.append_nil, List.take_of_length_le (by omega),
        List.take_of_length_le (by omega)]
    · rw [if_neg hbig]
      have htoNat : ((n : Int) * pageSize).toNat = n * pageSize.toNat := by omega
      rw [htoNat, ← List.take_add]
      by_cases hfit : (n : Int) * pageSize + pageSize ≤ (l.length : Int)
      · have hmin : min ((n : Int) * pageSize + pageSize) (l.length : Int)
            = (n : Int) * pageSize + pageSize := min_eq_left hfit
        rw [hmin]
        congr 1
        omega
      · have hmin : min ((n : Int) * pageSize + pageSize) (l.length : Int)
            = (l.length : Int) := min_eq_right (by omega)
        rw [hmin]
        rw [List.take_of_length_le (by omega), List.take_of_length_le (by omega)]

/-- Claim C7 is violated by the code at an out-of-range page parameter:
strconv.Atoi returns the clamped int64 bound together with a range error, the
handler discards the error, so the effective page is 9223372036854775807
rather than the default 1, and the subsequent wrapped index computation makes
the handler panic (modelled as none) instead of responding 200. -/
theorem listEmployees_range_overflow_bug :
    atoi "9223372036854775808"
      = (9223372036854775807,
         some "strconv.Atoi: parsing \"9223372036854775808\": value out of range") ∧
    effPage "9223372036854775808" = 9223372036854775807 ∧
    ListEmployees initialStore [] "9223372036854775808" "" = none :=
  ⟨rfl, rfl, rfl⟩

/-- Claim C8, as stated, fails on the code: over one and the same store
state, two list calls whose (unspecified) map iteration orders differ expose
the records in different orders, so the order is not deterministic across
calls. -/
theorem listEmployees_order_counterexample :
    validOrder twoStore [1, 2] ∧ validOrder twoStore [2, 1] ∧
    ListEmployees twoStore [1, 2] "" "" ≠ ListEmployees twoStore [2, 1] "" "" := by
  refine ⟨by decide, by decide, fun h => ?_⟩
  have hn := congrArg respFirstName h
  have h1 : respFirstName (ListEmployees twoStore [1, 2] "" "") = "Alice" := rfl
  have h2 : respFirstName (ListEmployees twoStore [2, 1] "" "") = "Bob" := rfl
  rw [h1, h2] at hn
  exact absurd hn (by decide)

/-- Claim C8 (amended): each list call builds one snapshot and slices it, so
the order is stable within a call: a valid iteration order yields a snapshot
containing exactly the stored records, consecutive pages of one snapshot
concatenate back to the snapshot prefix, and the page slice is the spec
sub-sequence of that snapshot; across calls the iteration order is
unspecified. -/
theorem listEmployees_snapshot_stability :
    (∀ (st : Store) (ord : List Int), validOrder st ord → (storeKeys st).Nodup →
      (snapshot st ord).Perm (storeRecords st)) ∧
    (∀ (l : List Employee) (pageSize : Int), 1 ≤ pageSize → ∀ n : Nat,
      (List.range n).flatMap (fun i => specPageSlice l ((i : Int) + 1) pageSize)
        = l.take (n * pageSize.toNat)) ∧
    (∀ (l : List Employee) (page pageSize : Int), 1 ≤ page → 1 ≤ pageSize →
      page * pageSize ≤ int64Max →
      goPageSlice l page pageSize = some (specPageSlice l page pageSize)) :=
  ⟨snapshot_perm, specPageSlice_pages_cover, goPageSlice_eq_spec⟩

/-- Witness for listEmployees_snapshot_stability at a concrete store and
snapshot. -/
theorem listEmployees_snapshot_stability_witness :
    (snapshot twoStore [2, 1]).Perm (storeRecords twoStore) ∧
    (List.range 2).flatMap (fun i => specPageSlice [empAlice, empBob] ((i : Int) + 1) 1)
      = [empAlice, empBob].take (2 * (1 : Int).toNat) ∧
    goPageSlice [empAlice, empBob] 1 2 = some (specPageSlice [empAlice, empBob] 1 2) :=
  ⟨listEmployees_snapshot_stability.1 twoStore [2, 1] (by decide) (by decide),
   listEmployees_snapshot_stability.2.1 [empAlice, empBob] 1 (by decide) 2,
   listEmployees_snapshot_stability.2.2 [empAlice, empBob] 1 2 (by decide) (by decide)
     (by decide)⟩

theorem getEmployee_status (st : Store) (idStr : String) :
    (GetEmployeeByID st idStr).status = 200 ∨ (GetEmployeeByID st idStr).status = 400 ∨
      (GetEmployeeByID st idStr).status = 404 := by
  unfold GetEmployeeByID
  rcases hA : atoi idStr with ⟨v, oe⟩
  rcases oe with _ | e
  · rcases hl : st.employees.lookup v with _ | emp <;> simp [hl]
  · simp

theorem createEmployee_status (st : Store) (body : Except String Employee) :
    (CreateEmployee st body).2.status = 200 ∨ (CreateEmployee st body).2.status = 400 := by
  rcases body with e | emp <;> simp [CreateEmployee]

theorem updateEmployee_status (st : Store) (idStr contentType : String)
    (body : Except String Employee) :
    (UpdateEmployee st idStr contentType body).2.status = 200 ∨
      (UpdateEmployee st idStr contentType body).2.status = 400 ∨
      (UpdateEmployee st idStr contentType body).2.status = 404 ∨
      (UpdateEmployee st idStr contentType body).2.status = 415 := by
  unfold UpdateEmployee
  rcases hA : atoi idStr with ⟨v, oe⟩
  rcases oe with _ | e
  · by_cases hct : contentType ≠ "application/json"
    · simp [hct]
    · simp only [if_neg hct]
      rcases body with e | emp
      · simp
      · rcases hl : st.employees.lookup v with _ | old <;> simp [hl]
  · simp

theorem deleteEmployee_status (st : Store) (idStr : String) :
    (DeleteEmployee st idStr).2.status = 204 ∨ (DeleteEmployee st idStr).2.status = 400 ∨
      (DeleteEmployee st idStr).2.status = 404 := by
  unfold DeleteEmployee
  rcases hA : atoi idStr with ⟨v, oe⟩
  rcases oe with _ | e
  · rcases hl : st.employees.lookup v with _ | emp <;> simp [hl]
  · simp

theorem listEmployees_status (st : Store) (ord : List Int) (pageStr pageSizeStr : String)
    (r : Response) (h : ListEmployees st ord pageStr pageSizeStr = some r) :
    r.status = 200 := by
  unfold ListEmployees at h
  rcases hg : goPageSlice (snapshot st ord) (effPage pageStr) (effPageSize pageSizeStr)
    with _ | res
  · rw [hg] at h
    simp at h
  · rw [hg] at h
    simp only [Option.map_some', Option.some.injEq] at h
    rw [← h]

/-- Claim C9, as stated, fails on the code: a malformed id is an InvalidInput
failure, yet its 400 response carries the fixed message trailer, not the raw
strconv parse error text. -/
theorem error_taxonomy_counterexample :
    GetEmployeeByID initialStore "abc" = ⟨400, .text "Invalid employee ID"⟩ ∧
    (atoi "abc").2 = some "strconv.Atoi: parsing \"abc\": invalid syntax" ∧
    "Invalid employee ID" ≠ "strconv.Atoi: parsing \"abc\": invalid syntax" :=
  ⟨rfl, rfl, by decide⟩

/-- Claim C9 (amended): malformed JSON bodies surface the raw decoder error
text with 400; malformed ids surface the fixed message with 400 and a wrong
content type surfaces a fixed message with 415; operations on an absent id
surface the fixed message with 404; and every response any handler produces
has one of the statuses 200, 204, 400, 404, 415. -/
theorem error_taxonomy :
    (∀ (st : Store) (e : String), CreateEmployee st (.error e) = (st, ⟨400, .text e⟩)) ∧
    (∀ (st : Store) (idStr : String) (v : Int) (e : String), atoi idStr = (v, some e) →
      GetEmployeeByID st idStr = ⟨400, .text "Invalid employee ID"⟩) ∧
    (∀ (st : Store) (idStr : String) (id : Int), atoi idStr = (id, none) →
      st.employees.lookup id = none →
      GetEmployeeByID st idStr = ⟨404, .text "Employee not found"⟩) ∧
    (∀ (st : Store) (idStr contentType : String) (v : Int) (e : String)
      (body : Except String Employee), atoi idStr = (v, some e) →
      UpdateEmployee st idStr contentType body = (st, ⟨400, .text "Invalid employee ID"⟩)) ∧
    (∀ (st : Store) (idStr contentType : String) (id : Int)
      (body : Except String Employee), atoi idStr = (id, none) →
      contentType ≠ "application/json" →
      UpdateEmployee st idStr contentType body =
        (st, ⟨415, .text "Invalid content-type. Expected \x27application/json\x27"⟩)) ∧
    (∀ (st : Store) (idStr : String) (id : Int) (e : String), atoi idStr = (id, none) →
      UpdateEmployee st idStr "application/json" (.error e) = (st, ⟨400, .text e⟩)) ∧
    (∀ (st : Store) (idStr : String) (id : Int) (emp : Employee), atoi idStr = (id, none) →
      st.employees.lookup id = none →
      UpdateEmployee st idStr "application/json" (.ok emp)
        = (st, ⟨404, .text "Employee not found"⟩)) ∧
    (∀ (st : Store) (idStr : String) (v : Int) (e : String), atoi idStr = (v, some e) →
      DeleteEmployee st idStr = (st, ⟨400, .text "Invalid employee ID"⟩)) ∧
    (∀ (st : Store) (idStr : String) (id : Int), atoi idStr = (id, none) →
      st.employees.lookup id = none →
      DeleteEmployee st idStr = (st, ⟨404, .text "Employee not found"⟩)) ∧
    (∀ (st st2 : Store) (op : Op) (r : Response), runOp st op = (st2, some r) →
      r.status = 200 ∨ r.status = 204 ∨ r.status = 400 ∨ r.status = 404 ∨
        r.status = 415) := by
  refine ⟨fun st e => rfl, ?_, ?_, ?_, ?_, ?_, ?_, ?_, ?_, ?_⟩
  · intro st idStr v e hid
    unfold GetEmployeeByID
    rw [hid]
  · intro st idStr id hid hlook
    unfold GetEmployeeByID
    rw [hid]
    simp [hlook]
  · intro st idStr contentType v e body hid
    unfold UpdateEmployee
    rw [hid]
  · intro st idStr contentType id body hid hct
    unfold UpdateEmployee
    rw [hid]
    simp [hct]
  · intro st idStr id e hid
    unfold UpdateEmployee
    rw [hid]
    rfl
  · intro st idStr id emp hid hlook
    unfold UpdateEmployee
    rw [hid]
    simp [hlook]
  · intro st idStr v e hid
    unfold DeleteEmployee
    rw [hid]
  · intro st idStr id hid hlook
    unfold DeleteEmployee
    rw [hid]
    simp [hlook]
  · intro st st2 op r h
    cases op with
    | create body =>
      have hr : r = (CreateEmployee st body).2 := by
        simp only [runOp, Prod.mk.injEq, Option.some.injEq] at h
        exact h.2.symm
      rw [hr]
      rcases createEmployee_status st body with h2 | h2 <;> simp [h2]
    | get idStr =>
      have hr : r = GetEmployeeByID st idStr := by
        simp only [runOp, Prod.mk.injEq, Option.some.injEq] at h
        exact h.2.symm
      rw [hr]
      rcases getEmployee_status st idStr with h2 | h2 | h2 <;> simp [h2]
    | update idStr ct body =>
      have hr : r = (UpdateEmployee st idStr ct body).2 := by
        simp only [runOp, Prod.mk.injEq, Option.some.injEq] at h
        exact h.2.symm
      rw [hr]
      rcases updateEmployee_status st idStr ct body with h2 | h2 | h2 | h2 <;> simp [h2]
    | delete idStr =>
      have hr : r = (DeleteEmployee st idStr).2 := by
        simp only [runOp, Prod.mk.injEq, Option.some.injEq] at h
        exact h.2.symm
      rw [hr]
      rcases deleteEmployee_status st idStr with h2 | h2 | h2 <;> simp [h2]
    | list ord pageStr pageSizeStr =>
      have hr : ListEmployees st ord pageStr pageSizeStr = some r := by
        simp only [runOp, Prod.mk.injEq] at h
        exact h.2
      simp [listEmployees_status st ord pageStr pageSizeStr r hr]

/-- Witness for updateEmployee_preserves_id: updating record 1 with a payload
carrying id 999 stores and returns the record under id 1. -/
theorem updateEmployee_preserves_id_witness :
    UpdateEmployee twoStore "1" "application/json"
        (.ok { id := 999, name := "Jane", position := "Designer", salary := 110000.0 }) =
      ({ twoStore with employees := (mapInsert twoStore.employees 1
          { id := 1, name := "Jane", position := "Designer", salary := 110000.0 }) },
       ⟨200, .jsonOne { id := 1, name := "Jane", position := "Designer", salary := 110000.0 }⟩) ∧
    GetEmployeeByID { twoStore with employees := (mapInsert twoStore.employees 1
          { id := 1, name := "Jane", position := "Designer", salary := 110000.0 }) } "1"
      = ⟨200, .jsonOne { id := 1, name := "Jane", position := "Designer", salary := 110000.0 }⟩ := by
  have h := updateEmployee_preserves_id twoStore "1" 1
    { id := 999, name := "Jane", position := "Designer", salary := 110000.0 } empAlice rfl rfl
  exact ⟨h.1, h.2.2.1⟩

/-- Witness for updateEmployee_notFound_atomic at an absent id over the empty
store. -/
theorem updateEmployee_notFound_atomic_witness :
    UpdateEmployee initialStore "7" "application/json" (.ok blankEmp)
      = (initialStore, ⟨404, .text "Employee not found"⟩) ∧
    (UpdateEmployee initialStore "7" "application/json" (.ok blankEmp)).1 = initialStore :=
  ⟨updateEmployee_notFound_atomic.1 initialStore "7" 7 blankEmp rfl rfl,
   updateEmployee_notFound_atomic.2 initialStore "7" "application/json" (.ok blankEmp)
     (by decide)⟩

/-- Witness for getEmployee_after_create: create then get over the empty
store. -/
theorem getEmployee_after_create_witness :
    CreateEmployee initialStore (.ok empAlice) =
      (⟨mapInsert initialStore.employees 1 { empAlice with id := 1 }, 1⟩,
       ⟨200, .jsonOne { empAlice with id := 1 }⟩) ∧
    GetEmployeeByID (CreateEmployee initialStore (.ok empAlice)).1 "1"
      = ⟨200, .jsonOne { empAlice with id := 1 }⟩ := by
  have h := getEmployee_after_create initialStore empAlice "1"
  exact ⟨h.1, h.2.1 rfl⟩

/-- Witness for deleteEmployee_then_get at a present and at an absent id. -/
theorem deleteEmployee_then_get_witness :
    DeleteEmployee twoStore "1"
      = ({ twoStore with employees := (mapErase twoStore.employees 1) }, ⟨204, .empty⟩) ∧
    GetEmployeeByID { twoStore with employees := (mapErase twoStore.employees 1) } "1"
      = ⟨404, .text "Employee not found"⟩ ∧
    DeleteEmployee initialStore "7" = (initialStore, ⟨404, .text "Employee not found"⟩) := by
  have h := deleteEmployee_then_get.1 twoStore "1" 1 empAlice rfl rfl
  exact ⟨h.1, h.2.2, deleteEmployee_then_get.2 initialStore "7" 7 rfl rfl⟩

/-- Witness for error_taxonomy: one concrete instance of each failure shape,
over the empty store. -/
theorem error_taxonomy_witness :
    CreateEmployee initialStore (.error "unexpected EOF") =
      (initialStore, ⟨400, .text "unexpected EOF"⟩) ∧
    GetEmployeeByID initialStore "xyz" = ⟨400, .text "Invalid employee ID"⟩ ∧
    GetEmployeeByID initialStore "7" = ⟨404, .text "Employee not found"⟩ ∧
    UpdateEmployee initialStore "xyz" "application/json" (.ok blankEmp)
      = (initialStore, ⟨400, .text "Invalid employee ID"⟩) ∧
    UpdateEmployee initialStore "7" "text/plain" (.ok blankEmp)
      = (initialStore, ⟨415, .text "Invalid content-type. Expected \x27application/json\x27"⟩) ∧
    UpdateEmployee initialStore "7" "application/json" (.error "unexpected EOF")
      = (initialStore, ⟨400, .text "unexpected EOF"⟩) ∧
    UpdateEmployee initialStore "7" "application/json" (.ok blankEmp)
      = (initialStore, ⟨404, .text "Employee not found"⟩) ∧
    DeleteEmployee initialStore "xyz" = (initialStore, ⟨400, .text "Invalid employee ID"⟩) ∧
    DeleteEmployee initialStore "7" = (initialStore, ⟨404, .text "Employee not found"⟩) ∧
    ((404 : Nat) = 200 ∨ (404 : Nat) = 204 ∨ (404 : Nat) = 400 ∨ (404 : Nat) = 404 ∨
      (404 : Nat) = 415) := by
  obtain ⟨h1, h2, h3, h4, h5, h6, h7, h8, h9, h10⟩ := error_taxonomy
  refine ⟨h1 initialStore "unexpected EOF",
    h2 initialStore "xyz" 0 "strconv.Atoi: parsing \"xyz\": invalid syntax" rfl,
    h3 initialStore "7" 7 rfl rfl,
    h4 initialStore "xyz" "application/json" 0
      "strconv.Atoi: parsing \"xyz\": invalid syntax" (.ok blankEmp) rfl,
    h5 initialStore "7" "text/plain" 7 (.ok blankEmp) rfl (by decide),
    h6 initialStore "7" 7 "unexpected EOF" rfl,
    h7 initialStore "7" 7 blankEmp rfl rfl,
    h8 initialStore "xyz" 0 "strconv.Atoi: parsing \"xyz\": invalid syntax" rfl,
    h9 initialStore "7" 7 rfl rfl,
    h10 initialStore initialStore (.get "7") ⟨404, .text "Employee not found"⟩ rfl⟩

/-- Witness for updateEmployee_content_type_precedes: a wrong content type on
an id absent from the store still yields 415, not 404. -/
theorem updateEmployee_content_type_precedes_witness :
    initialStore.employees.lookup 5 = none ∧
    UpdateEmployee initialStore "5" "application/json; charset=utf-8" (.ok blankEmp) =
      (initialStore, ⟨415, .text "Invalid content-type. Expected \x27application/json\x27"⟩) :=
  ⟨rfl, updateEmployee_content_type_precedes initialStore "5" 5
    "application/json; charset=utf-8" (.ok blankEmp) rfl (by decide)⟩
